import Mathlib

/-
Verification of the UCI driver in src/main.rs (lcnr/rubot-chess).

The driver wires an opaque rules engine (shakmaty: legal-move generation,
move application, outcome detection) and an opaque search engine (rubot)
to a line protocol.  Both engines are external crates, so they are
modelled as an abstract capability record `Rules`; the code under
verification is the adapter (`actions`, `execute`), the time-budget
computation in the `Go` handler (`allocate`), the `Position` handler
(`handlePosition`) and the bestmove step of the `Go` handler
(`goBestmove`), each translated directly from src/main.rs.

Durations are u64 milliseconds in the source; they are modelled as Nat
holding parsed u64 values (below 2^64), with every addition of the clock
formula taken modulo 2^64 as in a release build (a debug build would
panic at the same inputs instead).  The tree arm `inc / 2 + rem / 20` is
below 2^63 + 2^60 for u64 inputs, so its reduction is the identity, but
the cap arm `7000 + inc` does wrap for increments above 2^64 - 7001.
Fitness is i32 in the source; it is modelled as Int with the two i32
sentinels spelled out (a chess board holds at most 64 pieces of value at
most 900, so the material fold cannot overflow i32).
-/

namespace RubotChess

/-- Piece color, `shakmaty::Color`; also the seat/player identity. -/
inductive Color
  | white
  | black
deriving DecidableEq, Repr

/-- Piece role, `shakmaty::Role`. -/
inductive Role
  | pawn
  | knight
  | bishop
  | rook
  | queen
  | king
deriving DecidableEq, Repr

/-- A colored piece as yielded by `board().pieces()`. -/
structure Piece where
  color : Color
  role : Role
deriving DecidableEq, Repr

/-- Terminal result of a position, `shakmaty::Outcome`. -/
inductive Outcome
  | draw
  | decisive (winner : Color)
deriving DecidableEq, Repr

/-- The i32 win sentinel, `std::i32::MAX`. -/
def i32Max : Int := 2147483647

/-- The i32 loss sentinel, `std::i32::MIN`. -/
def i32Min : Int := -2147483648

/-- Per-role material value from the `match piece.role` table in `execute`. -/
def pieceValue : Role → Int
  | .pawn => 10
  | .knight => 30
  | .bishop => 30
  | .rook => 50
  | .queen => 90
  | .king => 900

/-- Capability record for the opaque rules engine (shakmaty), exactly the
operations src/main.rs calls on a position: `turn()`, `legals()`,
`play_unchecked`, `outcome()`, `board().pieces()`, `Chess::default()`,
FEN setup, and UCI-text-to-move translation (the last two may fail, which
the source unwraps). -/
structure Rules (Pos Move : Type) where
  turn : Pos → Color
  legals : Pos → List Move
  play : Pos → Move → Pos
  outcome : Pos → Option Outcome
  pieces : Pos → List Piece
  startpos : Pos
  fromFen : String → Option Pos
  uciToMove : Pos → String → Option Move

variable {Pos Move : Type}

/-- The adapter method `<Chess as Game>::actions`:
`(*player == self.0.turn(), self.0.legals())`. -/
def actions (R : Rules Pos Move) (g : Pos) (player : Color) : Bool × List Move :=
  (decide (player = R.turn g), R.legals g)

/-- The accumulator loop over `board().pieces()` in `execute`:
`fitness += value` when the piece color equals the player, else
`fitness -= value`. -/
def fitnessLoop (player : Color) : List Piece → Int → Int
  | [], fitness => fitness
  | p :: rest, fitness =>
      fitnessLoop player rest
        (if p.color = player then fitness + pieceValue p.role else fitness - pieceValue p.role)

/-- The adapter method `<Chess as Game>::execute`: play the action
unchecked, then score the resulting position (the mutated position is
returned as the first component). -/
def execute (R : Rules Pos Move) (g : Pos) (action : Move) (player : Color) : Pos × Int :=
  let g2 := R.play g action
  match R.outcome g2 with
  | some .draw => (g2, 0)
  | some (.decisive w) => (g2, if w = player then i32Max else i32Min)
  | none => (g2, fitnessLoop player (R.pieces g2) 0)

/-- Material balance as the spec words it: the sum over all pieces of the
fixed per-role value, added if the piece color equals the seat and
subtracted otherwise.  Stated independently of the accumulator loop in
the source so the two can be compared. -/
def materialBalance (seat : Color) : List Piece → Int
  | [] => 0
  | p :: rest =>
      (if p.color = seat then pieceValue p.role else -pieceValue p.role)
        + materialBalance seat rest

/-- Clock fields of `UciTimeControl::TimeLeft` (u64 milliseconds in the
source, each optional). -/
structure TimeLeft where
  white_time : Option Nat
  black_time : Option Nat
  white_increment : Option Nat
  black_increment : Option Nat
  moves_to_go : Option Nat
deriving DecidableEq, Repr

/-- Time-control clause of a `go` command, `vampirc_uci::UciTimeControl`. -/
inductive UciTimeControl
  | ponder
  | infinite
  | timeLeft (t : TimeLeft)
  | moveTime (ms : Nat)
deriving DecidableEq, Repr

/-- Size of the u64 value space, 2^64: the clock fields and `move_time`
are u64 in the source, so each addition of the clock formula is reduced
modulo this (release-build wrapping semantics; a debug build panics on
the same overflow). -/
def u64Size : Nat := 18446744073709551616

/-- The `move_time` computation of the `Go` handler: start from the 5000 ms
default, and overwrite it only in the `TimeLeft` arm (when the pair of
fields of the side to move is present) and in the `MoveTime` arm.
`moves_to_go` is only logged and does not change the computation.  The
u64 additions carry their modulus; the divisions cannot overflow. -/
def allocate : Option UciTimeControl → Color → Nat
  | none, _ => 5000
  | some .ponder, _ => 5000
  | some .infinite, _ => 5000
  | some (.timeLeft t), .black =>
      match t.black_time, t.black_increment with
      | some bt, some bi => min ((bi / 2 + bt / 20) % u64Size) ((7000 + bi) % u64Size)
      | _, _ => 5000
  | some (.timeLeft t), .white =>
      match t.white_time, t.white_increment with
      | some wt, some wi => min ((wi / 2 + wt / 20) % u64Size) ((7000 + wi) % u64Size)
      | _, _ => 5000
  | some (.moveTime ms), _ => ms

/-- Session state of the main loop: the current game and the seat the
rubot instance was constructed with. -/
structure Session (Pos : Type) where
  game : Pos
  botSeat : Color

/-- The move-list loop of the `Position` handler: each UCI token is
translated against the current position (two `unwrap`s in the source,
modelled as `none` = panic) and played unchecked. -/
def applyUciMoves (R : Rules Pos Move) : Pos → List String → Option Pos
  | g, [] => some g
  | g, mv :: rest =>
      match R.uciToMove g mv with
      | none => none
      | some m => applyUciMoves R (R.play g m) rest

/-- Base position chosen by the `Position` handler: `startpos` wins over a
FEN string (if / else if), and with neither the current game is kept. -/
def positionBase (R : Rules Pos Move) (startpos : Bool) (fen : Option String)
    (s : Session Pos) : Option Pos :=
  if startpos then some R.startpos
  else
    match fen with
    | some f => R.fromFen f
    | none => some s.game

/-- The `Position` handler: choose the base, apply the move list in order,
then rebind the bot to the side to move of the resulting position
(`bot = rubot::Bot::new(game.0.turn())`).  `none` models a panic of one of
the source's `unwrap`s. -/
def handlePosition (R : Rules Pos Move) (startpos : Bool) (fen : Option String)
    (moves : List String) (s : Session Pos) : Option (Session Pos) :=
  (positionBase R startpos fen s).bind fun g0 =>
    (applyUciMoves R g0 moves).map fun g => ⟨g, R.turn g⟩

/-- Session state right after startup, lines 77 and 78 of the source:
`Chess::default()` (the standard initial arrangement) and
`Bot::new(Color::Black)`. -/
def initSession (R : Rules Pos Move) : Session Pos :=
  ⟨R.startpos, Color.black⟩

/-- The bestmove step of the `Go` handler: ask the search engine for an
action within the allocated budget and print it, where the source unwraps
the returned `Option` (`bot.select(&game, ...).unwrap()`), so a `None`
result is a panic that aborts the process, modelled as `Except.error`. -/
def goBestmove (R : Rules Pos Move) (sel : Pos → Nat → Option Move)
    (toText : Pos → Move → String) (tc : Option UciTimeControl) (g : Pos) :
    Except String String :=
  match sel g (allocate tc (R.turn g)) with
  | some m => Except.ok ("bestmove " ++ toText g m)
  | none => Except.error "panicked: unwrap on None"

/-! ### A concrete instantiation of the rules oracle

Positions are numbered; the data of each numbered state matches a real
chess situation (state 0 is the standard starting position with its 20
legal moves and White to move, state 1 a checkmated position with White
to move and Black the winner, state 2 a kings-only draw, states 5, 6, 7
are positions one move away from states 2, 1, 10 respectively, state 10
an ongoing three-piece position). -/

/-- The 20 legal moves of the standard starting position, in UCI text. -/
def startLegals : List String :=
  ["a2a3", "a2a4", "b2b3", "b2b4", "c2c3", "c2c4", "d2d3", "d2d4",
   "e2e3", "e2e4", "f2f3", "f2f4", "g2g3", "g2g4", "h2h3", "h2h4",
   "b1a3", "b1c3", "g1f3", "g1h3"]

/-- One side's back rank of the standard starting position. -/
def backRank (c : Color) : List Piece :=
  [⟨c, .rook⟩, ⟨c, .knight⟩, ⟨c, .bishop⟩, ⟨c, .queen⟩,
   ⟨c, .king⟩, ⟨c, .bishop⟩, ⟨c, .knight⟩, ⟨c, .rook⟩]

/-- The 32 pieces of the standard starting position. -/
def startPieces : List Piece :=
  backRank .white ++ List.replicate 8 ⟨Color.white, Role.pawn⟩
    ++ List.replicate 8 ⟨Color.black, Role.pawn⟩ ++ backRank .black

/-- Side to move of each demo state. -/
def demoTurn : Nat → Color
  | 2 => .black
  | 6 => .black
  | _ => .white

/-- Legal moves of each demo state. -/
def demoLegals : Nat → List String
  | 0 => startLegals
  | 5 => ["c7c8"]
  | 6 => ["d8h4"]
  | 7 => ["e1e2"]
  | 10 => ["e1e2"]
  | _ => []

/-- Terminal outcome of each demo state. -/
def demoOutcome : Nat → Option Outcome
  | 1 => some (.decisive .black)
  | 2 => some .draw
  | _ => none

/-- Board pieces of each demo state. -/
def demoPieces : Nat → List Piece
  | 2 => [⟨.white, .king⟩, ⟨.black, .king⟩]
  | 10 => [⟨.white, .king⟩, ⟨.white, .pawn⟩, ⟨.black, .king⟩]
  | _ => startPieces

/-- Move application between demo states. -/
def demoPlay : Nat → String → Nat
  | 5, _ => 2
  | 6, _ => 1
  | 7, _ => 10
  | _, _ => 0

/-- The demo rules oracle. -/
def demoRules : Rules Nat String where
  turn := demoTurn
  legals := demoLegals
  play := demoPlay
  outcome := demoOutcome
  pieces := demoPieces
  startpos := 0
  fromFen := fun _ => none
  uciToMove := fun g mv => if mv ∈ demoLegals g then some mv else none

/-- A demo search engine with rubot's observable contract: some legal move
when one exists, `none` otherwise. -/
def demoSelect : Nat → Nat → Option String :=
  fun g _ => (demoLegals g).head?

/-- A demo move renderer (moves are already UCI text). -/
def demoToText : Nat → String → String :=
  fun _ m => m

/-! ### Helper lemmas -/

/-- The accumulator loop computes the material balance on top of its
accumulator. -/
theorem fitnessLoop_eq_materialBalance (player : Color) (l : List Piece) :
    ∀ acc : Int, fitnessLoop player l acc = acc + materialBalance player l := by
  induction l with
  | nil => intro acc; simp [fitnessLoop, materialBalance]
  | cons p rest ih =>
      intro acc
      by_cases h : p.color = player <;>
        simp [fitnessLoop, materialBalance, h, ih] <;> ring

/-- Flipping the seat negates the material balance. -/
theorem materialBalance_neg (A B : Color) (hAB : A ≠ B) (l : List Piece) :
    materialBalance A l = -materialBalance B l := by
  induction l with
  | nil => simp [materialBalance]
  | cons p rest ih =>
      have hp : (if p.color = A then pieceValue p.role else -pieceValue p.role)
          = -(if p.color = B then pieceValue p.role else -pieceValue p.role) := by
        cases A <;> cases B <;> cases hc : p.color <;> simp_all
      simp [materialBalance, hp, ih]
      ring

/-- The fitness returned by `execute` on a non-terminal result is the
material balance of the resulting position. -/
theorem execute_nonterminal_eq (R : Rules Pos Move) (g : Pos) (a : Move) (seat : Color)
    (h : R.outcome (R.play g a) = none) :
    (execute R g a seat).2 = materialBalance seat (R.pieces (R.play g a)) := by
  simp [execute, h, fitnessLoop_eq_materialBalance]

/-! ### Claim theorems -/

/-- Claim C1, counterexample: at the standard starting position (White to
move, 20 legal moves) queried for the Black seat, `actions` reports
`isToMove = false` yet returns a non-empty action sequence, refuting
"when isToMove is false the returned action sequence is empty". -/
theorem actions_offTurn_nonempty :
    (actions demoRules 0 Color.black).1 = false
      ∧ (actions demoRules 0 Color.black).2 ≠ [] := by
  constructor
  · rfl
  · simp [actions, demoRules, demoLegals, startLegals]

/-- Claim C1, amended: `isToMove` is true iff the seat equals the side to
move, and the returned action sequence is always the side to move's full
legal-move set, regardless of the queried seat. -/
theorem actions_isToMove_iff (R : Rules Pos Move) (g : Pos) (player : Color) :
    ((actions R g player).1 = true ↔ player = R.turn g)
      ∧ (actions R g player).2 = R.legals g := by
  refine ⟨?_, rfl⟩
  simp [actions]

/-- Claim C2: at a checkmated position (demo state 1, no legal moves) the
search engine returns no action and the `Go` handler panics on
`.unwrap()`, aborting the process instead of surfacing a recoverable
condition. -/
theorem go_select_none_aborts :
    goBestmove demoRules demoSelect demoToText none 1
      = Except.error "panicked: unwrap on None" := rfl

/-- Claim C3: when the position reached by `execute` is terminal, the
returned fitness is 0 on a draw, the i32 win sentinel when the seat is
the winner, and the i32 loss sentinel otherwise. -/
theorem execute_terminal_fitness (R : Rules Pos Move) (g : Pos) (a : Move)
    (seat : Color) (o : Outcome) (h : R.outcome (R.play g a) = some o) :
    (execute R g a seat).2 =
      match o with
      | .draw => 0
      | .decisive w => if w = seat then i32Max else i32Min := by
  cases o with
  | draw => simp [execute, h]
  | decisive w => simp [execute, h]

/-- Claim C3, witness: playing the mating move from demo state 6 reaches a
decisive position won by Black; from Black's perspective the fitness is
the win sentinel, from White's the loss sentinel. -/
theorem execute_terminal_fitness_witness :
    demoRules.outcome (demoRules.play 6 "d8h4") = some (Outcome.decisive Color.black)
      ∧ (execute demoRules 6 "d8h4" Color.black).2 = i32Max
      ∧ (execute demoRules 6 "d8h4" Color.white).2 = i32Min := by
  refine ⟨rfl, ?_, ?_⟩
  · have h := execute_terminal_fitness demoRules 6 "d8h4" Color.black
      (Outcome.decisive Color.black) rfl
    simpa using h
  · have h := execute_terminal_fitness demoRules 6 "d8h4" Color.white
      (Outcome.decisive Color.black) rfl
    simpa using h

/-- Claim C4: when the position reached by `execute` is not terminal, the
returned fitness is the material balance: the sum over all pieces of the
per-role value (pawn 10, knight 30, bishop 30, rook 50, queen 90,
king 900), counted positively for the seat's color and negatively
otherwise. -/
theorem execute_material_fitness (R : Rules Pos Move) (g : Pos) (a : Move)
    (seat : Color) (h : R.outcome (R.play g a) = none) :
    (execute R g a seat).2 = materialBalance seat (R.pieces (R.play g a)) :=
  execute_nonterminal_eq R g a seat h

/-- Claim C4, witness: playing from demo state 7 reaches the ongoing
three-piece state 10 (white king and pawn, black king), whose material
balance for White is 900 + 10 - 900 = 10. -/
theorem execute_material_fitness_witness :
    demoRules.outcome (demoRules.play 7 "e1e2") = none
      ∧ (execute demoRules 7 "e1e2" Color.white).2
          = materialBalance Color.white (demoRules.pieces (demoRules.play 7 "e1e2"))
      ∧ (execute demoRules 7 "e1e2" Color.white).2 = 10 := by
  refine ⟨rfl, execute_material_fitness demoRules 7 "e1e2" Color.white rfl, ?_⟩
  decide

/-- Claim C5: on a non-terminal result the material score from one seat's
perspective is the exact negation of the score of the same position from
the other seat's perspective. -/
theorem score_antisymmetric (R : Rules Pos Move) (g : Pos) (a : Move)
    (A B : Color) (hAB : A ≠ B) (h : R.outcome (R.play g a) = none) :
    (execute R g a A).2 = -(execute R g a B).2 := by
  rw [execute_nonterminal_eq R g a A h, execute_nonterminal_eq R g a B h]
  exact materialBalance_neg A B hAB _

/-- Claim C5, witness: at the non-terminal position reached from demo
state 7, White's score is the negation of Black's. -/
theorem score_antisymmetric_witness :
    Color.white ≠ Color.black
      ∧ demoRules.outcome (demoRules.play 7 "e1e2") = none
      ∧ (execute demoRules 7 "e1e2" Color.white).2
          = -(execute demoRules 7 "e1e2" Color.black).2 :=
  ⟨by decide, rfl,
    score_antisymmetric demoRules 7 "e1e2" Color.white Color.black (by decide) rfl⟩

/-- Claim C6, counterexample: at the wire-reachable clock values
remaining = 1, increment = 2^64 - 1 (for the side to move, Black), the
u64 cap arm `7000 + increment` wraps and the program allocates 6999 ms,
not the `min(increment / 2 + remaining / 20, 7000 + increment)` of the
claim, which would be 9223372036854775807 ms. -/
theorem clock_cap_wraps :
    allocate
        (some (.timeLeft ⟨none, some 1, none, some 18446744073709551615, none⟩))
        Color.black = 6999
      ∧ 6999 ≠ min (18446744073709551615 / 2 + 1 / 20) (7000 + 18446744073709551615) := by
  constructor <;> decide

/-- Claim C6, amended: in clock mode, when the remaining-time and
increment fields of the side to move are both present and the u64 cap
`7000 + increment` does not overflow, the budget is
`min(increment / 2 + remaining / 20, 7000 + increment)` (for larger
increments the wrapped cap applies instead); when either field is absent
the budget is the 5000 ms default; in particular remaining 60000 and
increment 1000 give 3500 ms. -/
theorem clock_budget :
    (∀ (wt wi mtg : Option Nat) (rem inc : Nat), rem < u64Size → 7000 + inc < u64Size →
        allocate (some (.timeLeft ⟨wt, some rem, wi, some inc, mtg⟩)) Color.black
          = min (inc / 2 + rem / 20) (7000 + inc))
      ∧ (∀ (bt bi mtg : Option Nat) (rem inc : Nat), rem < u64Size → 7000 + inc < u64Size →
          allocate (some (.timeLeft ⟨some rem, bt, some inc, bi, mtg⟩)) Color.white
            = min (inc / 2 + rem / 20) (7000 + inc))
      ∧ (∀ (wt wi bi mtg : Option Nat),
          allocate (some (.timeLeft ⟨wt, none, wi, bi, mtg⟩)) Color.black = 5000)
      ∧ (∀ (wt wi bt mtg : Option Nat),
          allocate (some (.timeLeft ⟨wt, bt, wi, none, mtg⟩)) Color.black = 5000)
      ∧ (∀ (bt bi wi mtg : Option Nat),
          allocate (some (.timeLeft ⟨none, bt, wi, bi, mtg⟩)) Color.white = 5000)
      ∧ (∀ (bt bi wt mtg : Option Nat),
          allocate (some (.timeLeft ⟨wt, bt, none, bi, mtg⟩)) Color.white = 5000)
      ∧ allocate (some (.timeLeft ⟨none, some 60000, none, some 1000, none⟩)) Color.black
          = 3500 := by
  have key : ∀ rem inc : Nat, rem < u64Size → 7000 + inc < u64Size →
      min ((inc / 2 + rem / 20) % u64Size) ((7000 + inc) % u64Size)
        = min (inc / 2 + rem / 20) (7000 + inc) := by
    intro rem inc h1 h2
    have ha : inc / 2 + rem / 20 < u64Size := by unfold u64Size at *; omega
    rw [Nat.mod_eq_of_lt ha, Nat.mod_eq_of_lt h2]
  refine ⟨?_, ?_, ?_, ?_, ?_, ?_, by decide⟩
  · intro wt wi mtg rem inc h1 h2
    exact key rem inc h1 h2
  · intro bt bi mtg rem inc h1 h2
    exact key rem inc h1 h2
  · intro wt wi bi mtg; cases bi <;> rfl
  · intro wt wi bt mtg; cases bt <;> rfl
  · intro bt bi wi mtg; cases wi <;> rfl
  · intro bt bi wt mtg; cases wt <;> rfl

/-- Claim C6, witness: the concrete clock of the claim (remaining 60000,
increment 1000, far from the overflow bound) gets the 3500 ms budget
through the amended formula. -/
theorem clock_budget_witness :
    (60000 : Nat) < u64Size
      ∧ 7000 + (1000 : Nat) < u64Size
      ∧ allocate (some (.timeLeft ⟨none, some 60000, none, some 1000, none⟩)) Color.black
          = min (1000 / 2 + 60000 / 20) (7000 + 1000) :=
  ⟨by decide, by decide,
    clock_budget.1 none none none 60000 1000 (by decide) (by decide)⟩

/-- Claim C7: fixed-time mode allocates exactly the given duration for any
seat, and with no time-control mode at all the budget is the 5000 ms
default. -/
theorem fixed_and_default_budget :
    (∀ (t : Nat) (s : Color), allocate (some (.moveTime t)) s = t)
      ∧ ∀ s : Color, allocate none s = 5000 :=
  ⟨fun _ s => by cases s <;> rfl, fun _ => rfl⟩

/-- Claim C8: every successfully handled position command leaves the bot
bound to the side to move of the resulting position. -/
theorem position_rebinds_seat (R : Rules Pos Move) (sp : Bool) (fen : Option String)
    (moves : List String) (s t : Session Pos)
    (h : handlePosition R sp fen moves s = some t) :
    t.botSeat = R.turn t.game := by
  unfold handlePosition at h
  cases hb : positionBase R sp fen s with
  | none => rw [hb] at h; simp at h
  | some g0 =>
      rw [hb] at h
      simp only [Option.some_bind] at h
      cases hm : applyUciMoves R g0 moves with
      | none => rw [hm] at h; simp at h
      | some g =>
          rw [hm] at h
          exact Option.some.inj h ▸ rfl

/-- Claim C8, witness: handling `position startpos` from an arbitrary
session yields the start state with the bot bound to White, the side to
move there. -/
theorem position_rebinds_seat_witness :
    handlePosition demoRules true none [] ⟨2, Color.black⟩
        = some ⟨0, Color.white⟩
      ∧ (Session.mk 0 Color.white : Session Nat).botSeat
          = demoRules.turn (Session.mk 0 Color.white : Session Nat).game :=
  ⟨rfl, position_rebinds_seat demoRules true none [] ⟨2, Color.black⟩
    ⟨0, Color.white⟩ rfl⟩

/-- Claim C9: at startup the session position is the standard initial
arrangement and the bot is bound to Black, which differs from the side to
move there (White). -/
theorem init_session_state (R : Rules Pos Move)
    (hw : R.turn R.startpos = Color.white) :
    (initSession R).game = R.startpos
      ∧ (initSession R).botSeat = Color.black
      ∧ (initSession R).botSeat ≠ R.turn (initSession R).game := by
  refine ⟨rfl, rfl, ?_⟩
  show Color.black ≠ R.turn R.startpos
  rw [hw]
  decide

/-- Claim C9, witness: in the demo oracle the starting position has White
to move, so the startup bot seat (Black) differs from it. -/
theorem init_session_state_witness :
    demoRules.turn demoRules.startpos = Color.white
      ∧ (initSession demoRules).botSeat ≠ demoRules.turn (initSession demoRules).game :=
  ⟨rfl, (init_session_state demoRules rfl).2.2⟩

/-- Claim C10: a position command with neither `startpos` nor a board
description keeps the current session position as the base, applies the
move list on top of it, and rebinds the bot to the resulting side to
move; with an empty move list the position is exactly the current one. -/
theorem position_frame (R : Rules Pos Move) (moves : List String) (s : Session Pos) :
    handlePosition R false none moves s
        = (applyUciMoves R s.game moves).map (fun g => ⟨g, R.turn g⟩)
      ∧ handlePosition R false none [] s = some ⟨s.game, R.turn s.game⟩ :=
  ⟨rfl, rfl⟩

end RubotChess
